import Mathlib

/-
Verification of the SeqContainer expression-template library (namespace Oliver):
a shallow embedding of src/src/Operator_Templates.h, src/src/Expression_Template.h
and the SeqContainer class body (src/unnamed/part_000), with theorems about the
container operations, the operator catalogue and the expression nodes.

Modelling conventions:
 - the default element type intmax_t is modelled as Int; machine overflow
   (undefined behaviour for a signed C++ type) is not modelled, every statement
   below uses values far from the 64-bit range;
 - a C++ operation that can hit undefined behaviour on some input (integer
   division or remainder by zero, an out-of-range std::vector subscript) is
   embedded as an Option-valued function returning none on exactly those inputs;
 - a C++ member function that mutates the receiver is embedded as a function
   from the receiver to its new state; when it also returns a value, the result
   is a pair of the returned value and the receiver afterwards.
-/

set_option autoImplicit false

namespace Oliver

/-- Element type of the default instantiation, intmax_t, modelled as Int. -/
abbrev Value := Int

/-- C++ bitwise complement of a two's-complement signed integer. -/
def bitNot (x : Value) : Value := -(x + 1)

/-- C++ left shift of a signed integer: multiplication by a power of two.
A negative shift count, undefined behaviour in C++, is clamped by Int.toNat;
no statement below uses one. -/
def shiftLVal (a b : Value) : Value := a * 2 ^ b.toNat

/-- C++ right shift of a signed integer, C++20 arithmetic shift: floor
division by a power of two. -/
def shiftRVal (a b : Value) : Value := Int.fdiv a (2 ^ b.toNat)

/-- C++ remainder of signed integers: truncated remainder, undefined when the
divisor is zero, hence none there. -/
def cppMod (a b : Value) : Option Value := if b = 0 then none else some (Int.tmod a b)

/-! Operator catalogue, src/src/Operator_Templates.h.  Each struct has four
static apply overloads, one per combination of const-lvalue and rvalue
arguments; suffix cc, rc, cr, rr names the combination (c = T const ref,
r = T rvalue ref), in the order the overloads appear in the source. -/

/-- Add_Op, overload T const, T const: a + b. -/
def Add_Op.apply_cc (a b : Value) : Value := a + b

/-- Add_Op, overload T rvalue, T const: a += b, move a. -/
def Add_Op.apply_rc (a b : Value) : Value := a + b

/-- Add_Op, overload T const, T rvalue: b += a, move b. -/
def Add_Op.apply_cr (a b : Value) : Value := b + a

/-- Add_Op, overload T rvalue, T rvalue: a += b, move a. -/
def Add_Op.apply_rr (a b : Value) : Value := a + b

/-- Mod_Op, overload T const, T const: guarded, 0 when the divisor is zero
(source lines 132-137: if b, return a mod b, else return 0). -/
def Mod_Op.apply_cc (a b : Value) : Option Value :=
  if b ≠ 0 then cppMod a b else some 0

/-- Mod_Op, overload T rvalue, T const: a %= b with no zero-divisor guard. -/
def Mod_Op.apply_rc (a b : Value) : Option Value := cppMod a b

/-- Mod_Op, overload T const, T rvalue: a % b with no zero-divisor guard. -/
def Mod_Op.apply_cr (a b : Value) : Option Value := cppMod a b

/-- Mod_Op, overload T rvalue, T rvalue: a %= b with no zero-divisor guard. -/
def Mod_Op.apply_rr (a b : Value) : Option Value := cppMod a b

/-- LeftShift_Op, overload T const, T const: a left-shifted by b. -/
def LeftShift_Op.apply_cc (a b : Value) : Value := shiftLVal a b

/-- LeftShift_Op, overload T rvalue, T const: a <<= b. -/
def LeftShift_Op.apply_rc (a b : Value) : Value := shiftLVal a b

/-- LeftShift_Op, overload T const, T rvalue: the source executes a >>= b
(src/src/Operator_Templates.h lines 235-238), a right shift. -/
def LeftShift_Op.apply_cr (a b : Value) : Value := shiftRVal a b

/-- LeftShift_Op, overload T rvalue, T rvalue: a <<= b. -/
def LeftShift_Op.apply_rr (a b : Value) : Value := shiftLVal a b

/-- RightShift_Op, overload T const, T const: a right-shifted by b. -/
def RightShift_Op.apply_cc (a b : Value) : Value := shiftRVal a b

/-- RightShift_Op, overload T rvalue, T const: a >>= b. -/
def RightShift_Op.apply_rc (a b : Value) : Value := shiftRVal a b

/-- RightShift_Op, overload T const, T rvalue: a >>= b. -/
def RightShift_Op.apply_cr (a b : Value) : Value := shiftRVal a b

/-- RightShift_Op, overload T rvalue, T rvalue: a >>= b. -/
def RightShift_Op.apply_rr (a b : Value) : Value := shiftRVal a b

/-! The sequence container, src/unnamed/part_000. -/

/-- SeqContainer over the default std::vector storage: the owned sequence. -/
structure SeqContainer where
  _sequence : List Value
deriving DecidableEq

/-- The process-wide default element value def_value, zero-initialized
(part_000 lines 258-259). -/
def def_value : Value := 0

namespace SeqContainer

/-- size(): the element count of the owned storage (part_000 lines 400-403). -/
def size (c : SeqContainer) : Nat := c._sequence.length

/-- Const subscript operator (part_000 lines 555-561): the stored element in
range, def_value past the end; a total read that never grows the container. -/
def getConst (c : SeqContainer) (i : Nat) : Value :=
  if i < c._sequence.length then c._sequence.getD i def_value else def_value

/-- Behaviour of std::vector resize with a fill value: truncate when shrinking,
append copies of the fill value when growing. -/
def implResize (s : List Value) (n : Nat) (v : Value) : List Value :=
  if n ≤ s.length then s.take n else s ++ List.replicate (n - s.length) v

/-- resize(size, value) (part_000 lines 421-436): grow with the fill value when
the request is at least the current size, otherwise truncate, a request of
zero replacing the storage with a fresh empty one. -/
def resize (c : SeqContainer) (n : Nat) (v : Value) : SeqContainer :=
  if c._sequence.length ≤ n then ⟨implResize c._sequence n v⟩
  else if 0 < n then ⟨implResize c._sequence n def_value⟩
  else ⟨[]⟩

/-- resize(size) (part_000 lines 415-419): delegates with a value-initialized
fill value. -/
def resizeDefault (c : SeqContainer) (n : Nat) : SeqContainer := c.resize n def_value

/-- Modelled from the spec: the helper max_val used throughout part_000 is part
of the surrounding Oliver project and is not among the source files; spec
section 4.2 fixes the compound-assignment loop limit to the maximum of the two
sizes, so max_val is the maximum. -/
def max_val (a b : Nat) : Nat := max a b

/-- Mutable subscript operator (part_000 lines 563-569) followed by assignment
of v to the returned reference: when the index is past the end the container
first grows to index + 1 elements, zero-filled, then slot index is written. -/
def setMut (c : SeqContainer) (i : Nat) (v : Value) : SeqContainer :=
  if c._sequence.length ≤ i then ⟨(c.resizeDefault (i + 1))._sequence.set i v⟩
  else ⟨c._sequence.set i v⟩

/-- One iteration of a compound-assignment loop (part_000 lines 618-620 and
its nine siblings): slot i becomes the current slot i combined with the total
read of operand b at i. -/
def compoundStep (op : Value → Value → Value) (b : SeqContainer) (s : List Value) (i : Nat) : List Value :=
  s.set i (op (s.getD i def_value) (b.getConst i))

/-- Shared shape of the ten operator OP=(const SeqContainer and) overloads
(part_000 lines 612-730): take the limit as max_val of the two sizes, resize
to limit + 1 when the receiver is shorter, then run the elementwise loop for
indices below the limit. -/
def compoundAssign (op : Value → Value → Value) (m b : SeqContainer) : SeqContainer :=
  if m.size < max_val m.size b.size then
    ⟨(List.range (max_val m.size b.size)).foldl (compoundStep op b)
      (m.resizeDefault (max_val m.size b.size + 1))._sequence⟩
  else
    ⟨(List.range (max_val m.size b.size)).foldl (compoundStep op b) m._sequence⟩

/-- operator += on another container (part_000 lines 612-622). -/
def addAssign (m b : SeqContainer) : SeqContainer :=
  compoundAssign (fun a b => a + b) m b

/-- One iteration of the operator %= loop (part_000 line 667): the elementwise
remainder is undefined on a zero divisor, so the step is Option-valued. -/
def compoundStepM (op : Value → Value → Option Value) (b : SeqContainer) (s : List Value) (i : Nat) : Option (List Value) :=
  (op (s.getD i def_value) (b.getConst i)).map (fun v => s.set i v)

/-- Shape of a compound assignment whose elementwise operation can hit
undefined behaviour: the loop propagates the first failure. -/
def compoundAssignM (op : Value → Value → Option Value) (m b : SeqContainer) : Option SeqContainer :=
  if m.size < max_val m.size b.size then
    ((List.range (max_val m.size b.size)).foldlM (compoundStepM op b)
      (m.resizeDefault (max_val m.size b.size + 1))._sequence).map SeqContainer.mk
  else
    ((List.range (max_val m.size b.size)).foldlM (compoundStepM op b) m._sequence).map SeqContainer.mk

/-- operator %= on another container (part_000 lines 660-670): the loop body
is an unguarded elementwise remainder. -/
def modAssign (m b : SeqContainer) : Option SeqContainer := compoundAssignM cppMod m b

/-- operator spaceship (part_000 lines 544-553): greater when the left size is
larger, less when smaller, equivalent otherwise; std::partial_ordering values
are rendered as Ordering. -/
def spaceship (a b : SeqContainer) : Ordering :=
  if b.size < a.size then Ordering.gt
  else if a.size < b.size then Ordering.lt
  else Ordering.eq

/-- operator == (part_000 lines 539-542): the three-way comparison compared
with equivalent. -/
def eqOp (a b : SeqContainer) : Bool := spaceship a b == Ordering.eq

/-- Private rotate_left (part_000 lines 972-988): for a non-empty sequence,
std::ranges::rotate about end minus the reduced shift, which moves the last
shift mod size elements to the front. -/
def rotate_left (c : SeqContainer) (shift : Nat) : SeqContainer :=
  if 0 < c._sequence.length then
    ⟨c._sequence.drop (c._sequence.length - shift % c._sequence.length) ++
      c._sequence.take (c._sequence.length - shift % c._sequence.length)⟩
  else c

/-- Private rotate_right (part_000 lines 1002-1017): for a non-empty sequence,
std::ranges::rotate about begin plus the reduced shift, which moves the first
shift mod size elements to the back. -/
def rotate_right (c : SeqContainer) (shift : Nat) : SeqContainer :=
  if 0 < c._sequence.length then
    ⟨c._sequence.drop (shift % c._sequence.length) ++
      c._sequence.take (shift % c._sequence.length)⟩
  else c

/-- Zero loop of rotate_left_and_drop (part_000 lines 993-998): writes zero to
the first shift mod size slots of a non-empty sequence. -/
def zeroFirst (c : SeqContainer) (shift : Nat) : SeqContainer :=
  if 0 < c._sequence.length then
    ⟨(List.range (shift % c._sequence.length)).foldl
        (fun s i => s.set i (0 : Value)) c._sequence⟩
  else c

/-- Zero loop of rotate_right_and_drop (part_000 lines 1022-1029): the while
loop walks the index down from size - 1 to size - shift mod size, writing zero;
iteration k writes slot size - 1 - k, for shift mod size iterations. -/
def zeroTail (c : SeqContainer) (shift : Nat) : SeqContainer :=
  if 0 < c._sequence.length then
    ⟨(List.range (shift % c._sequence.length)).foldl
        (fun s k => s.set (c._sequence.length - 1 - k) (0 : Value)) c._sequence⟩
  else c

/-- Private rotate_left_and_drop (part_000 lines 990-1000). -/
def rotate_left_and_drop (c : SeqContainer) (shift : Nat) : SeqContainer :=
  zeroFirst (c.rotate_left shift) shift

/-- Private rotate_right_and_drop (part_000 lines 1019-1031). -/
def rotate_right_and_drop (c : SeqContainer) (shift : Nat) : SeqContainer :=
  zeroTail (c.rotate_right shift) shift

/-- shift(index) (part_000 lines 475-484): rotate and drop, to the left for a
positive argument, otherwise to the right by the absolute value. -/
def shift (c : SeqContainer) (index : Int) : SeqContainer :=
  if 0 < index then c.rotate_left_and_drop index.toNat
  else c.rotate_right_and_drop index.natAbs

/-- cshift(index) (part_000 lines 486-495): circular rotate, to the left for a
positive argument, otherwise to the right by the absolute value. -/
def cshift (c : SeqContainer) (index : Int) : SeqContainer :=
  if 0 < index then c.rotate_left index.toNat
  else c.rotate_right index.natAbs

/-- Binary apply(const SeqContainer and b, func) (part_000 lines 515-537):
same limit and resize shape as the compound assignments, but the loop body
reads the raw storage of b by vector subscript, so the read at an index past
the end of b is an out-of-range access, rendered none; the read of the
receiver is always in range and uses the plain storage element. -/
def applyBinary (a b : SeqContainer) (f : Value → Value → Value) : Option SeqContainer :=
  if a.size < max_val a.size b.size then
    ((List.range (max_val a.size b.size)).foldlM
        (fun s i => (b._sequence[i]?).map (fun bv => s.set i (f (s.getD i def_value) bv)))
        (a.resizeDefault (max_val a.size b.size + 1))._sequence).map SeqContainer.mk
  else
    ((List.range (max_val a.size b.size)).foldlM
        (fun s i => (b._sequence[i]?).map (fun bv => s.set i (f (s.getD i def_value) bv)))
        a._sequence).map SeqContainer.mk

/-- Unary operator compl (part_000 lines 597-604): the loop overwrites the
receiver's own storage with the bitwise complement of each element, then
returns the receiver by value; the pair is (returned copy, receiver after). -/
def complementOp (c : SeqContainer) : SeqContainer × SeqContainer :=
  (⟨(List.range c._sequence.length).foldl
      (fun s i => s.set i (bitNot (s.getD i def_value))) c._sequence⟩,
   ⟨(List.range c._sequence.length).foldl
      (fun s i => s.set i (bitNot (s.getD i def_value))) c._sequence⟩)

/-- Unary operator minus (part_000 lines 587-595): a copy of the receiver is
negated elementwise and returned; the receiver itself is left untouched. -/
def negOp (c : SeqContainer) : SeqContainer × SeqContainer :=
  (⟨(List.range c._sequence.length).foldl
      (fun s i => s.set i (-(s.getD i def_value))) c._sequence⟩,
   c)

end SeqContainer

/-- Shallow rendering of the ExprTemplate class
(src/src/Expression_Template.h): a leaf holds a container operand, a node
holds the left subtree, the element function that overload resolution of the
catalogue's apply selects for it, and the right subtree. -/
inductive ExprT where
  | leaf (c : SeqContainer)
  | node (l : ExprT) (op : Value → Value → Value) (r : ExprT)

/-- ExprTemplate subscript (Expression_Template.h lines 146-148): apply the
node's operation to the two operands read at the same index; a container leaf
reads through its total const subscript. -/
def ExprT.get : ExprT → Nat → Value
  | ExprT.leaf c, i => c.getConst i
  | ExprT.node l op r, i => op (l.get i) (r.get i)

/-- ExprTemplate size (Expression_Template.h lines 150-152): the left
operand's size when nonzero, otherwise the right operand's. -/
def ExprT.size : ExprT → Nat
  | ExprT.leaf c => c.size
  | ExprT.node l _ r => if l.size ≠ 0 then l.size else r.size

/-- The node built by m + n on two named containers (part_000 lines 900-904):
both operands are const lvalues, so its subscript calls the const-const
overload of Add_Op. -/
def addNode (m n : SeqContainer) : ExprT :=
  ExprT.node (ExprT.leaf m) Add_Op.apply_cc (ExprT.leaf n)

open SeqContainer

/-! Helper lemmas. -/

/-- Reading an element of an append at the length of the first part yields the
head of the second part. -/
lemma getD_append_at (A : List Value) (x : Value) (t : List Value) (d : Value)
    (n : Nat) (hA : A.length = n) : (A ++ x :: t).getD n d = x := by
  rw [List.getD_eq_getElem?_getD, List.getElem?_append_right (by omega)]
  simp [hA]

/-- Writing an element of an append at the length of the first part replaces
the head of the second part. -/
lemma set_append_at (A : List Value) (x v : Value) (t : List Value)
    (n : Nat) (hA : A.length = n) : (A ++ x :: t).set n v = A ++ v :: t := by
  rw [List.set_append_right _ _ (by omega)]
  simp [hA]

/-- An in-place loop that rewrites each slot below n with a function of its
current value acts as map on the first n slots. -/
lemma foldl_set_range_map (g : Value → Value) :
    ∀ (n : Nat) (l : List Value), n ≤ l.length →
      (List.range n).foldl (fun s i => s.set i (g (s.getD i def_value))) l
        = (l.take n).map g ++ l.drop n := by
  intro n
  induction n with
  | zero => intro l _; simp
  | succ n ih =>
    intro l h
    have hn : n < l.length := h
    have hA : ((l.take n).map g).length = n := by
      simp only [List.length_map, List.length_take]
      omega
    rw [List.range_succ, List.foldl_append, ih l (Nat.le_of_lt hn)]
    simp only [List.foldl_cons, List.foldl_nil]
    rw [List.drop_eq_getElem_cons hn, getD_append_at _ _ _ _ _ hA,
      set_append_at _ _ _ _ _ hA, List.take_succ, List.getElem?_eq_getElem hn]
    simp only [Option.toList_some, List.map_append, List.map_cons, List.map_nil,
      List.append_assoc, List.cons_append, List.nil_append]

/-- A loop of writes of a fixed value preserves the length of the list. -/
lemma length_foldl_set (h : Nat → Nat) (v : Value) :
    ∀ (idxs : List Nat) (l : List Value),
      (idxs.foldl (fun s i => s.set (h i) v) l).length = l.length := by
  intro idxs
  induction idxs with
  | nil => intro l; rfl
  | cons i t ih => intro l; rw [List.foldl_cons, ih, List.length_set]

lemma length_rotate_left (c : SeqContainer) (s : Nat) :
    (c.rotate_left s)._sequence.length = c._sequence.length := by
  unfold SeqContainer.rotate_left
  by_cases h : 0 < c._sequence.length
  · rw [if_pos h]
    have hs : s % c._sequence.length < c._sequence.length := Nat.mod_lt _ h
    simp only [List.length_append, List.length_drop, List.length_take]
    omega
  · rw [if_neg h]

lemma length_rotate_right (c : SeqContainer) (s : Nat) :
    (c.rotate_right s)._sequence.length = c._sequence.length := by
  unfold SeqContainer.rotate_right
  by_cases h : 0 < c._sequence.length
  · rw [if_pos h]
    have hs : s % c._sequence.length < c._sequence.length := Nat.mod_lt _ h
    simp only [List.length_append, List.length_drop, List.length_take]
    omega
  · rw [if_neg h]

lemma length_zeroFirst (c : SeqContainer) (s : Nat) :
    (c.zeroFirst s)._sequence.length = c._sequence.length := by
  unfold SeqContainer.zeroFirst
  by_cases h : 0 < c._sequence.length
  · rw [if_pos h]
    exact length_foldl_set (fun i => i) 0 _ _
  · rw [if_neg h]

lemma length_zeroTail (c : SeqContainer) (s : Nat) :
    (c.zeroTail s)._sequence.length = c._sequence.length := by
  unfold SeqContainer.zeroTail
  by_cases h : 0 < c._sequence.length
  · rw [if_pos h]
    exact length_foldl_set (fun k => c._sequence.length - 1 - k) 0 _ _
  · rw [if_neg h]

/-- Rotating left then right by the same count restores the sequence. -/
lemma rotate_right_rotate_left (c : SeqContainer) (s : Nat)
    (h : 0 < c._sequence.length) : (c.rotate_left s).rotate_right s = c := by
  obtain ⟨l⟩ := c
  have h' : 0 < l.length := h
  have hs : s % l.length < l.length := Nat.mod_lt _ h'
  have h1 : SeqContainer.rotate_left ⟨l⟩ s
      = ⟨l.drop (l.length - s % l.length) ++ l.take (l.length - s % l.length)⟩ := by
    unfold SeqContainer.rotate_left
    rw [if_pos h']
  have hA : (l.drop (l.length - s % l.length)).length = s % l.length := by
    simp only [List.length_drop]
    omega
  have hlen : (l.drop (l.length - s % l.length)
      ++ l.take (l.length - s % l.length)).length = l.length := by
    simp only [List.length_append, List.length_drop, List.length_take]
    omega
  rw [h1]
  unfold SeqContainer.rotate_right
  dsimp only
  rw [hlen, if_pos h']
  congr 1
  rw [List.drop_left' hA, List.take_left' hA, List.take_append_drop]

/-- Rotating right then left by the same count restores the sequence. -/
lemma rotate_left_rotate_right (c : SeqContainer) (s : Nat)
    (h : 0 < c._sequence.length) : (c.rotate_right s).rotate_left s = c := by
  obtain ⟨l⟩ := c
  have h' : 0 < l.length := h
  have hs : s % l.length < l.length := Nat.mod_lt _ h'
  have h1 : SeqContainer.rotate_right ⟨l⟩ s
      = ⟨l.drop (s % l.length) ++ l.take (s % l.length)⟩ := by
    unfold SeqContainer.rotate_right
    rw [if_pos h']
  have hA : (l.drop (s % l.length)).length = l.length - s % l.length := by
    simp only [List.length_drop]
  have hlen : (l.drop (s % l.length) ++ l.take (s % l.length)).length = l.length := by
    simp only [List.length_append, List.length_drop, List.length_take]
    omega
  rw [h1]
  unfold SeqContainer.rotate_left
  dsimp only
  rw [hlen, if_pos h']
  congr 1
  rw [List.drop_left' hA, List.take_left' hA, List.take_append_drop]

lemma rotate_right_zero (c : SeqContainer) : c.rotate_right 0 = c := by
  obtain ⟨l⟩ := c
  unfold SeqContainer.rotate_right
  dsimp only
  by_cases h : 0 < l.length
  · rw [if_pos h]
    simp
  · rw [if_neg h]

/-! Claim theorems. -/

/-- C1: the compound assignment computes this(i) = this(i) OP other(i) for
every index below the maximum of the sizes, reading the shorter operand with
zero fill, but the growth path calls resize(limit + 1): for m = (1,2,3) and
n = (0,1,2,3,4), m += n leaves m = (1,3,5,3,4,0) of size 6, not size 5 as the
claim and the spec's testable property state. -/
theorem c1_compound_assign_size_off_by_one :
    addAssign ⟨[1, 2, 3]⟩ ⟨[0, 1, 2, 3, 4]⟩ = ⟨[1, 3, 5, 3, 4, 0]⟩ ∧
    (addAssign ⟨[1, 2, 3]⟩ ⟨[0, 1, 2, 3, 4]⟩).size = 6 ∧
    ¬ (addAssign ⟨[1, 2, 3]⟩ ⟨[0, 1, 2, 3, 4]⟩).size = 5 := by
  decide

/-- C2: the four overloads of an operation struct do not all agree: three
overloads of LeftShift_Op shift 8 left by 1 to 16, but the const-rvalue
overload executes a right shift and yields 4; RightShift_Op right-shifts in
every overload. -/
theorem c2_left_shift_cr_overload_right_shifts :
    LeftShift_Op.apply_cc 8 1 = 16 ∧ LeftShift_Op.apply_rc 8 1 = 16 ∧
    LeftShift_Op.apply_rr 8 1 = 16 ∧ LeftShift_Op.apply_cr 8 1 = 4 ∧
    LeftShift_Op.apply_cr 8 1 ≠ LeftShift_Op.apply_cc 8 1 ∧
    RightShift_Op.apply_cc 8 1 = 4 ∧ RightShift_Op.apply_rc 8 1 = 4 ∧
    RightShift_Op.apply_cr 8 1 = 4 ∧ RightShift_Op.apply_rr 8 1 = 4 := by
  decide

/-- C3: only the const-const overload of Mod_Op guards the zero divisor and
returns zero; the other three overloads, and the elementwise loop of
operator %= on a container, execute the remainder unguarded, which is
undefined for a zero divisor (none), not zero. -/
theorem c3_mod_zero_unguarded_overloads :
    Mod_Op.apply_cc 5 0 = some 0 ∧
    Mod_Op.apply_rc 5 0 = none ∧ Mod_Op.apply_cr 5 0 = none ∧
    Mod_Op.apply_rr 5 0 = none ∧
    modAssign ⟨[5]⟩ ⟨[0]⟩ = none := by
  decide

/-- C4: the three-way comparison of two containers looks only at the sizes:
greater exactly when the left size is larger, less exactly when smaller, and
operator == holds exactly when the sizes agree, so equal-length containers
with different elements, such as (1,2) and (3,4), compare equal. -/
theorem c4_compare_by_length_only (a b : SeqContainer) :
    (spaceship a b = Ordering.gt ↔ b.size < a.size) ∧
    (spaceship a b = Ordering.lt ↔ a.size < b.size) ∧
    (eqOp a b = true ↔ a.size = b.size) ∧
    eqOp ⟨[1, 2]⟩ ⟨[3, 4]⟩ = true := by
  unfold eqOp spaceship
  by_cases h1 : b.size < a.size
  · rw [if_pos h1]
    refine ⟨by simp [h1], ?_, ?_, by decide⟩
    · simp [show ¬ a.size < b.size from by omega]
    · rw [show (Ordering.gt == Ordering.eq) = false from rfl]
      simp [show ¬ a.size = b.size from by omega]
  · by_cases h2 : a.size < b.size
    · rw [if_neg h1, if_pos h2]
      refine ⟨by simp [h1], by simp [h2], ?_, by decide⟩
      rw [show (Ordering.lt == Ordering.eq) = false from rfl]
      simp [show ¬ a.size = b.size from by omega]
    · rw [if_neg h1, if_neg h2]
      have h3 : a.size = b.size := by omega
      refine ⟨by simp [h1], by simp [h2], ?_, by decide⟩
      rw [show (Ordering.eq == Ordering.eq) = true from rfl]
      simp [h3]

/-- C5: the const subscript is total: it yields the stored element in range
and the zero default past the end, and therefore indexing the node m + n at
any index at or beyond both operand sizes yields zero. -/
theorem c5_read_total_and_node_zero (c : SeqContainer) (i : Nat)
    (m n : SeqContainer) (j : Nat) (hj : max m.size n.size ≤ j) :
    (i < c.size → c.getConst i = c._sequence.getD i def_value) ∧
    (c.size ≤ i → c.getConst i = def_value) ∧
    (addNode m n).get j = def_value := by
  refine ⟨fun h => ?_, fun h => ?_, ?_⟩
  · have h' : i < c._sequence.length := h
    unfold SeqContainer.getConst
    rw [if_pos h']
  · have h' : c._sequence.length ≤ i := h
    unfold SeqContainer.getConst
    rw [if_neg (Nat.not_lt.mpr h')]
  · show Add_Op.apply_cc (m.getConst j) (n.getConst j) = def_value
    have hm : m.getConst j = def_value := by
      have h' : m._sequence.length ≤ j := le_trans (le_max_left _ n.size) hj
      unfold SeqContainer.getConst
      rw [if_neg (Nat.not_lt.mpr h')]
    have hn : n.getConst j = def_value := by
      have h' : n._sequence.length ≤ j := le_trans (le_max_right m.size _) hj
      unfold SeqContainer.getConst
      rw [if_neg (Nat.not_lt.mpr h')]
    rw [hm, hn]
    decide

/-- C5 witness: concrete instances of the total read and of the node read
past both operands. -/
theorem c5_read_total_witness :
    SeqContainer.getConst ⟨[7]⟩ 0 = 7 ∧
    SeqContainer.getConst ⟨[7]⟩ 5 = def_value ∧
    (addNode ⟨[1]⟩ ⟨[2, 3]⟩).get 2 = def_value := by
  have h1 := c5_read_total_and_node_zero ⟨[7]⟩ 0 ⟨[1]⟩ ⟨[2, 3]⟩ 2 (by decide)
  have h2 := c5_read_total_and_node_zero ⟨[7]⟩ 5 ⟨[1]⟩ ⟨[2, 3]⟩ 2 (by decide)
  exact ⟨(h1.1 (by decide)).trans (by decide), h2.2.1 (by decide), h1.2.2⟩

/-- C6: a mutable subscript write at an index at or past the end grows the
container to exactly index + 1 elements, keeps the old elements, zero-fills
the gap, and stores the written value at the index. -/
theorem c6_write_grows_zero_filled (c : SeqContainer) (i : Nat) (v : Value)
    (h : c.size ≤ i) :
    (c.setMut i v).size = i + 1 ∧
    (c.setMut i v).getConst i = v ∧
    (∀ j, j < c.size → (c.setMut i v).getConst j = c.getConst j) ∧
    (∀ j, c.size ≤ j → j < i → (c.setMut i v).getConst j = def_value) := by
  have hL : c._sequence.length ≤ i := h
  have hset : c.setMut i v
      = ⟨(c._sequence ++ List.replicate (i + 1 - c._sequence.length) def_value).set i v⟩ := by
    unfold SeqContainer.setMut
    rw [if_pos hL]
    unfold SeqContainer.resizeDefault SeqContainer.resize SeqContainer.implResize
    rw [if_pos (Nat.le_succ_of_le hL), if_neg (by omega : ¬ i + 1 ≤ c._sequence.length)]
  set s : List Value :=
    c._sequence ++ List.replicate (i + 1 - c._sequence.length) def_value with hs_def
  have hslen : s.length = i + 1 := by
    rw [hs_def]
    simp only [List.length_append, List.length_replicate]
    omega
  refine ⟨?_, ?_, ?_, ?_⟩
  · rw [hset]
    show (s.set i v).length = i + 1
    rw [List.length_set, hslen]
  · rw [hset]
    unfold SeqContainer.getConst
    dsimp only
    rw [if_pos (by rw [List.length_set, hslen]; omega : i < (s.set i v).length)]
    rw [List.getD_eq_getElem?_getD, List.getElem?_set_self (by rw [hslen]; omega)]
    rfl
  · intro j hj
    have hj' : j < c._sequence.length := hj
    rw [hset]
    unfold SeqContainer.getConst
    dsimp only
    rw [if_pos (by rw [List.length_set, hslen]; omega : j < (s.set i v).length),
      if_pos hj']
    rw [List.getD_eq_getElem?_getD, List.getD_eq_getElem?_getD,
      List.getElem?_set_ne (by omega : i ≠ j), hs_def,
      List.getElem?_append_left hj']
  · intro j hjc hji
    have hjc' : c._sequence.length ≤ j := hjc
    rw [hset]
    unfold SeqContainer.getConst
    dsimp only
    rw [if_pos (by rw [List.length_set, hslen]; omega : j < (s.set i v).length)]
    rw [List.getD_eq_getElem?_getD, List.getElem?_set_ne (by omega : i ≠ j), hs_def,
      List.getElem?_append_right hjc', List.getElem?_replicate,
      if_pos (by omega : j - c._sequence.length < i + 1 - c._sequence.length)]
    rfl

/-- C6 witness: writing slot 999 of an empty container yields 1000 slots,
the written value at 999 and zero below. -/
theorem c6_write_grows_witness :
    (SeqContainer.setMut ⟨[]⟩ 999 5).size = 1000 ∧
    SeqContainer.getConst (SeqContainer.setMut ⟨[]⟩ 999 5) 999 = 5 ∧
    SeqContainer.getConst (SeqContainer.setMut ⟨[]⟩ 999 5) 0 = def_value := by
  have h := c6_write_grows_zero_filled ⟨[]⟩ 999 5 (by decide)
  exact ⟨h.1, h.2.1, h.2.2.2 0 (by decide) (by decide)⟩

/-- C7: the circular rotation pair is inverse on any nonempty container, and
the drop rotation pair is not: (1,2,3) shifted by 1 then by -1 gives (1,2,0),
the dropped slot holding zero. -/
theorem c7_cshift_invertible_shift_lossy :
    (∀ (c : SeqContainer) (k : Int), 0 < c.size → (c.cshift k).cshift (-k) = c) ∧
    ((⟨[1, 2, 3]⟩ : SeqContainer).shift 1).shift (-1) = ⟨[1, 2, 0]⟩ ∧
    (((⟨[1, 2, 3]⟩ : SeqContainer).shift 1).shift (-1)).getConst 2 = 0 ∧
    ((⟨[1, 2, 3]⟩ : SeqContainer).shift 1).shift (-1) ≠ ⟨[1, 2, 3]⟩ := by
  refine ⟨?_, by decide, by decide, by decide⟩
  intro c k hk
  unfold SeqContainer.cshift
  by_cases h1 : 0 < k
  · rw [if_pos h1, if_neg (by omega : ¬ (0 : Int) < -k),
      (by omega : (-k).natAbs = k.toNat)]
    exact rotate_right_rotate_left c k.toNat hk
  · by_cases h2 : k = 0
    · subst h2
      rw [if_neg (by decide : ¬ (0 : Int) < -0), if_neg (by decide : ¬ (0 : Int) < 0)]
      simp only [Int.neg_zero, Int.natAbs_zero]
      rw [rotate_right_zero, rotate_right_zero]
    · rw [if_neg h1, if_pos (by omega : (0 : Int) < -k),
        (by omega : (-k).toNat = k.natAbs)]
      exact rotate_left_rotate_right c k.natAbs hk

/-- C7 witness: the circular rotation pair restores a concrete container. -/
theorem c7_cshift_invertible_witness :
    ((⟨[1, 2]⟩ : SeqContainer).cshift 1).cshift (-1) = ⟨[1, 2]⟩ :=
  c7_cshift_invertible_shift_lossy.1 ⟨[1, 2]⟩ 1 (by decide)

/-- C8: both rotation families preserve the element count, for every
container and every signed shift argument. -/
theorem c8_shift_preserves_size (c : SeqContainer) (k : Int) :
    (c.shift k).size = c.size ∧ (c.cshift k).size = c.size := by
  constructor
  · unfold SeqContainer.shift SeqContainer.rotate_left_and_drop
      SeqContainer.rotate_right_and_drop
    by_cases h : 0 < k
    · rw [if_pos h]
      show (zeroFirst (c.rotate_left k.toNat) k.toNat)._sequence.length = _
      rw [length_zeroFirst, length_rotate_left]
      rfl
    · rw [if_neg h]
      show (zeroTail (c.rotate_right k.natAbs) k.natAbs)._sequence.length = _
      rw [length_zeroTail, length_rotate_right]
      rfl
  · unfold SeqContainer.cshift
    by_cases h : 0 < k
    · rw [if_pos h]
      exact length_rotate_left c k.toNat
    · rw [if_neg h]
      exact length_rotate_right c k.natAbs

/-- C9: with a shorter second operand, the binary apply loop reads the raw
storage of b past its end, an out-of-range access (none) instead of the
zero-fill read, which would have passed zero to the function; with operands
of equal length the pass succeeds. -/
theorem c9_apply_reads_b_raw_out_of_range :
    applyBinary ⟨[1, 2, 3]⟩ ⟨[10]⟩ (fun a b => a + b) = none ∧
    SeqContainer.getConst ⟨[10]⟩ 1 = def_value ∧
    applyBinary ⟨[1, 2]⟩ ⟨[10, 20]⟩ (fun a b => a + b) = some ⟨[11, 22]⟩ := by
  decide

/-- C10: unary complement rewrites the receiver's own storage elementwise and
returns exactly the mutated receiver, while unary minus leaves the receiver
untouched and returns a negated copy. -/
theorem c10_complement_mutates_minus_copies (c : SeqContainer) :
    (c.complementOp).1 = (c.complementOp).2 ∧
    ((c.complementOp).2)._sequence = c._sequence.map bitNot ∧
    (c.negOp).2 = c ∧
    ((c.negOp).1)._sequence = c._sequence.map (fun x => -x) := by
  refine ⟨rfl, ?_, rfl, ?_⟩
  · show (List.range c._sequence.length).foldl _ c._sequence = _
    rw [foldl_set_range_map bitNot c._sequence.length c._sequence (le_refl _)]
    simp
  · show (List.range c._sequence.length).foldl _ c._sequence = _
    rw [foldl_set_range_map (fun x => -x) c._sequence.length c._sequence (le_refl _)]
    simp

end Oliver
